import Mathlib

/-!
Shallow embedding of the cache-freshness and incremental-refresh core of the
`namnsdag` CLI (Go), and proofs of the specification claims about it.

Embedded source files:
* `pkg/namnsdag/cache.go` — the `Cache` model, `SetNames`/`AddNames`,
  `DoM` day keys, and the `LoadCache`/`SaveCache`/`ClearCache` file operations;
* `pkg/namnsdag/namnsdag.go` — the `Name` record, `SortNames`, and the
  success path of `Fetch`;
* `cmd/root.go` — the refresh orchestrator `loadOrFetchNames` and the
  presentation helpers `namesForToday` / `filterOnlyOfficial`.

Conventions of the embedding:
* Go `time.Time` values are modelled as natural numbers (an absolute instant);
  the Go zero `time.Time{}` sentinel is `0`, `t.Before u` is `t < u`, and
  `t.Truncate(24h)` is truncation to a multiple of the day length.
* The Go map `map[DoM][]Name` is modelled as an association list with unique
  keys; a `nil` map and an empty map are both the empty list (the two are
  observationally equal for lookups and `len`, which is all the embedded
  code uses them for).
* File-system effects are modelled explicitly: the cache file is a
  `FileState` and `LoadCache`/`SaveCache` are functions of it.  JSON
  (de)serialization of a well-formed cache file is modelled as faithful
  storage of the `Cache` value; content that does not deserialize is the
  distinguished `FileState.malformed`.
* The external collaborators (HTTP fetch, the JSON payload of the web page)
  are modelled by explicit outcome values supplied as parameters.
-/

namespace Namnsdag

/-- The `Name` struct of `pkg/namnsdag/namnsdag.go`: one celebrated name with
its calendar assignment, classification and gender tag.  Go `time.Month` and
`int` are both embedded as `Int`; the `Type` and `Gender` string enums are
embedded as `String`. -/
structure Name where
  url : String
  name : String
  day : Int
  month : Int
  typeOfName : String
  gender : String
deriving DecidableEq, Repr

/-- Known classification value `TypeName Type = "NAME"` from
`pkg/namnsdag/namnsdag.go`. -/
def TypeName : String := "NAME"

/-- Known classification value `TypeNewName Type = "NEW_NAME"` from
`pkg/namnsdag/namnsdag.go`. -/
def TypeNewName : String := "NEW_NAME"

/-- Modelled from the spec: the constant `namnsdag.TypeUnofficial` is referenced
by `cmd/root.go` but its declaration is not among the provided source files
(the provided `namnsdag.go` declares only `TypeName` and `TypeNewName`).  The
spec calls it the `Unofficial` classification variant, distinguished from all
official variants; it is modelled as the remaining known enum string. -/
def TypeUnofficial : String := "NEW_NAME"

/-- The `DoM` (day-of-month) struct of `pkg/namnsdag/cache.go`: a day in a
month, no matter what year. -/
structure DoM where
  day : Int
  month : Int
deriving DecidableEq, Repr

/-- `NewDoM` of `pkg/namnsdag/cache.go`. -/
def NewDoM (month day : Int) : DoM :=
  { day := day, month := month }

/-- The method `Name.DoM` of `pkg/namnsdag/namnsdag.go`: this name's
day-of-month key. -/
def Name.dom (n : Name) : DoM :=
  NewDoM n.month n.day

/-- The Go map `map[DoM][]Name`, embedded as an association list.  Keys are
unique by construction of the operations below; a `nil` Go map is the empty
list. -/
abbrev NamesPerDay := List (DoM × List Name)

/-- Go map indexing `namesPerDay[dom]`: the bucket of a key, or the empty
list when the key is absent (Go returns the `nil` slice). -/
def lookupDoM (m : NamesPerDay) (k : DoM) : List Name :=
  match m with
  | [] => []
  | (k', ns) :: rest => if k' = k then ns else lookupDoM rest k

/-- One step of `Cache.AddNames` of `pkg/namnsdag/cache.go`:
`c.NamesPerDay[dom] = append(c.NamesPerDay[dom], name)` — append `n` to the
bucket of key `k`, creating the bucket if absent. -/
def addName (m : NamesPerDay) (k : DoM) (n : Name) : NamesPerDay :=
  match m with
  | [] => [(k, [n])]
  | (k', ns) :: rest =>
      if k' = k then (k', ns ++ [n]) :: rest else (k', ns) :: addName rest k n

/-- The loop of `Cache.AddNames` of `pkg/namnsdag/cache.go`: insert every name
under its own `NewDoM(name.Month, name.Day)` key, in input order. -/
def addNames (m : NamesPerDay) (names : List Name) : NamesPerDay :=
  names.foldl (fun acc n => addName acc n.dom n) m

/-- The `Cache` struct of `pkg/namnsdag/cache.go`: ETag validation token,
last-update timestamp (`0` is the Go zero-`time.Time` sentinel) and the
per-day name map. -/
structure Cache where
  etag : String
  updatedAt : Nat
  namesPerDay : NamesPerDay
deriving DecidableEq, Repr

/-- The Go zero value `Cache{}`. -/
def emptyCache : Cache :=
  { etag := "", updatedAt := 0, namesPerDay := [] }

/-- The method `Cache.AddNames` of `pkg/namnsdag/cache.go`. -/
def Cache.addNames (c : Cache) (names : List Name) : Cache :=
  { c with namesPerDay := Namnsdag.addNames c.namesPerDay names }

/-- The method `Cache.SetNames` of `pkg/namnsdag/cache.go`:
`c.NamesPerDay = nil; c.AddNames(names)` — replace the whole map. -/
def Cache.setNames (c : Cache) (names : List Name) : Cache :=
  Cache.addNames { c with namesPerDay := [] } names

/-- The state of the cache file on disk, as observed by
`LoadCache`/`SaveCache` of `pkg/namnsdag/cache.go`.
`stored c` is a file whose bytes deserialize to exactly the cache `c`;
`malformed` is a present file whose bytes do not deserialize (truncated,
corrupt, or unrecognized schema); `unreadable` is a present file whose read
fails with a non-`IsNotExist` I/O error. -/
inductive FileState
  | absent
  | stored (c : Cache)
  | malformed
  | unreadable
deriving DecidableEq, Repr

/-- The errors `LoadCache`/`SaveCache` of `pkg/namnsdag/cache.go` can return,
by originating operation. -/
inductive CacheErr
  | readErr
  | parseErr
  | mkdirErr
  | createErr
  | encodeErr
deriving DecidableEq, Repr

/-- `LoadCache` of `pkg/namnsdag/cache.go` as a function of the file state.
Go returns the pair `(Cache, error)`: `(Cache{}, nil)` when the file is
absent, `(Cache{}, err)` when the read or the `json.Unmarshal` fails, and
`(cache, nil)` on success. -/
def loadCache : FileState → Cache × Option CacheErr
  | FileState.absent => (emptyCache, none)
  | FileState.stored c => (c, none)
  | FileState.malformed => (emptyCache, some CacheErr.parseErr)
  | FileState.unreadable => (emptyCache, some CacheErr.readErr)

/-- The timestamp stamping inside `SaveCache` of `pkg/namnsdag/cache.go`:
`if cache.UpdatedAt == (time.Time{}) { cache.UpdatedAt = time.Now() }`. -/
def stampUpdatedAt (c : Cache) (now : Nat) : Cache :=
  if c.updatedAt = 0 then { c with updatedAt := now } else c

/-- Which step of `SaveCache` fails, if any.  `SaveCache` runs, in order:
`os.MkdirAll` on the cache directory, `os.Create` on the cache file (which
truncates any existing content), the timestamp stamping, and a streaming
`json.Encoder.Encode` into the open file. -/
inductive SaveMode
  | allOk
  | mkdirFail
  | createFail
  | encodeFail
deriving DecidableEq, Repr

/-- `SaveCache` of `pkg/namnsdag/cache.go` as a function of the prior file
state, the cache to save, the current time, and the failing step: returns the
resulting file state and the returned error.  `os.Create` truncates the
destination in place, so a failure of the subsequent `Encode` leaves the file
holding a partial prefix of the new serialization — i.e. `malformed` — while
a failure before `os.Create` leaves the prior state untouched. -/
def saveCache (prior : FileState) (c : Cache) (now : Nat) :
    SaveMode → FileState × Option CacheErr
  | SaveMode.mkdirFail => (prior, some CacheErr.mkdirErr)
  | SaveMode.createFail => (prior, some CacheErr.createErr)
  | SaveMode.encodeFail => (FileState.malformed, some CacheErr.encodeErr)
  | SaveMode.allOk => (FileState.stored (stampUpdatedAt c now), none)

/-- The Go duration `24 * time.Hour` in nanoseconds. -/
def dayLen : Nat := 86400000000000

/-- `now.Truncate(24 * time.Hour)` of Go: round the instant down to a
multiple of the day length — the start of the current day. -/
def truncToDay (t : Nat) : Nat :=
  t - t % dayLen

/-- `SortNames`'s comparison closure in `pkg/namnsdag/namnsdag.go`: strictly
less first by month, then by day, and finally by name. -/
def nameLess (a b : Name) : Bool :=
  if a.month ≠ b.month then decide (a.month < b.month)
  else if a.day ≠ b.day then decide (a.day < b.day)
  else decide (a.name < b.name)

/-- `SortNames` of `pkg/namnsdag/namnsdag.go`: sort a slice of names with the
comparison `nameLess` (Go `sort.Slice`; the result is a permutation of the
input with no `nameLess` inversion). -/
def sortNames (names : List Name) : List Name :=
  names.mergeSort (fun a b => ! nameLess b a)

/-- The outcome of the external collaborator `fetchAllNextJSData` of
`pkg/namnsdag/namnsdag.go` (HTTP document retrieval plus embedded-JSON
extraction): a 304 not-modified signal, a raw name list plus new ETag, or a
failure. -/
inductive NextDataOutcome
  | notModified (etag : String)
  | ok (names : List Name) (etag : String)
  | fail
deriving DecidableEq, Repr

/-- The result of `Fetch` of `pkg/namnsdag/namnsdag.go` as consumed by the
orchestrator: the `ErrHTTPNotModified` sentinel with the echoed ETag, a
successful response, or any other error. -/
inductive FetchOutcome
  | notModified (etag : String)
  | success (names : List Name) (etag : String)
  | failure
deriving DecidableEq, Repr

/-- `Fetch` of `pkg/namnsdag/namnsdag.go` as a function of the collaborator's
outcome: the not-modified sentinel and failures pass through, and on success
the parsed names are sorted with `SortNames` before being returned. -/
def fetchGo : NextDataOutcome → FetchOutcome
  | NextDataOutcome.notModified e => FetchOutcome.notModified e
  | NextDataOutcome.ok names e => FetchOutcome.success (sortNames names) e
  | NextDataOutcome.fail => FetchOutcome.failure

/-- The distinct error values `loadOrFetchNames` of `cmd/root.go` can return,
one per `return nil/…, err` site. -/
inductive CmdErr
  | cannotUseBothFlags
  | loadCachedNames
  | noneOrOutdatedCache
  | fetchNames
  | cacheNames
deriving DecidableEq, Repr

/-- The environment of one `loadOrFetchNames` run: the result of `LoadCache`
(`none` models a load error), the fetch collaborator as a function of the
request ETag, and whether `SaveCache` would succeed. -/
structure Env where
  load : Option Cache
  fetch : String → FetchOutcome
  saveOk : Bool

/-- The observable outcome of one `loadOrFetchNames` run: the returned
`map[DoM][]Name` (a `nil` Go map is the empty list), the returned error, and
how many times `LoadCache`, `Fetch` and `SaveCache` were invoked. -/
structure Outcome where
  namesPerDay : NamesPerDay
  error : Option CmdErr
  loadCalls : Nat
  fetchCalls : Nat
  saveCalls : Nat
deriving DecidableEq, Repr

/-- The body of `loadOrFetchNames` of `cmd/root.go` from the point where the
cache value is in hand (after the flag check and the optional `LoadCache`);
`lc` is the number of load calls already performed. -/
def resolveWithCache (now : Nat) (noFetch : Bool) (env : Env) (cache : Cache)
    (lc : Nat) : Outcome :=
  let isCacheValid : Bool := cache.namesPerDay.length > 0
  if isCacheValid && noFetch then
    { namesPerDay := cache.namesPerDay, error := none,
      loadCalls := lc, fetchCalls := 0, saveCalls := 0 }
  else
    let isCacheOutdated : Bool :=
      !isCacheValid || decide (cache.updatedAt < truncToDay now)
    if isCacheOutdated && noFetch then
      { namesPerDay := [], error := some CmdErr.noneOrOutdatedCache,
        loadCalls := lc, fetchCalls := 0, saveCalls := 0 }
    else if !isCacheOutdated then
      { namesPerDay := cache.namesPerDay, error := none,
        loadCalls := lc, fetchCalls := 0, saveCalls := 0 }
    else
      let reqEtag : String := if !isCacheValid then "" else cache.etag
      match env.fetch reqEtag with
      | FetchOutcome.notModified _ =>
          if isCacheValid then
            { namesPerDay := cache.namesPerDay, error := none,
              loadCalls := lc, fetchCalls := 1, saveCalls := 0 }
          else
            { namesPerDay := cache.namesPerDay, error := some CmdErr.fetchNames,
              loadCalls := lc, fetchCalls := 1, saveCalls := 0 }
      | FetchOutcome.failure =>
          { namesPerDay := cache.namesPerDay, error := some CmdErr.fetchNames,
            loadCalls := lc, fetchCalls := 1, saveCalls := 0 }
      | FetchOutcome.success names newEtag =>
          let refreshed : Cache :=
            { cache.setNames names with updatedAt := now, etag := newEtag }
          if env.saveOk then
            { namesPerDay := refreshed.namesPerDay, error := none,
              loadCalls := lc, fetchCalls := 1, saveCalls := 1 }
          else
            { namesPerDay := refreshed.namesPerDay,
              error := some CmdErr.cacheNames,
              loadCalls := lc, fetchCalls := 1, saveCalls := 1 }

/-- `loadOrFetchNames` of `cmd/root.go`: the refresh orchestrator.  Checks
the flag combination, optionally loads the cache (starting from the Go zero
`Cache{}` when `--no-cache` is set), then runs the freshness decision and the
conditional fetch of `resolveWithCache`.  Both `time.Now()` calls of the
source (the truncation bound and the new `UpdatedAt`) are modelled by the
single instant `now`. -/
def loadOrFetchNames (now : Nat) (noCache noFetch : Bool) (env : Env) :
    Outcome :=
  if noCache && noFetch then
    { namesPerDay := [], error := some CmdErr.cannotUseBothFlags,
      loadCalls := 0, fetchCalls := 0, saveCalls := 0 }
  else if noCache then
    resolveWithCache now noFetch env emptyCache 0
  else
    match env.load with
    | none =>
        { namesPerDay := [], error := some CmdErr.loadCachedNames,
          loadCalls := 1, fetchCalls := 0, saveCalls := 0 }
    | some c => resolveWithCache now noFetch env c 1

/-- `filterOnlyOfficial` of `cmd/root.go`: keep the names whose type is not
`TypeUnofficial`. -/
def filterOnlyOfficial (names : List Name) : List Name :=
  names.filter (fun n => decide (¬ n.typeOfName = TypeUnofficial))

/-- `namesForToday` of `cmd/root.go` with the day key already computed
(`NewDoMFromTime` reduces the requested time to its `DoM`): select the bucket
of that key and optionally apply the official-only filter. -/
def namesForToday (m : NamesPerDay) (dom : DoM) (noUnofficial : Bool) :
    List Name :=
  let names := lookupDoM m dom
  if noUnofficial then filterOnlyOfficial names else names

/-- A concrete name record used in concrete instances. -/
def demoName : Name :=
  { url := "https://dagensnamnsdag.nu/namn/erik", name := "Erik",
    day := 1, month := 1, typeOfName := "NAME", gender := "BOY" }

/-- A second concrete name record, on another day. -/
def demoName2 : Name :=
  { url := "https://dagensnamnsdag.nu/namn/anna", name := "Anna",
    day := 9, month := 12, typeOfName := "NEW_NAME", gender := "GIRL" }

/-- A concrete non-empty cache used in concrete instances. -/
def demoCache : Cache :=
  { etag := "abc", updatedAt := 5,
    namesPerDay := [(NewDoM 1 1, [demoName])] }

/-- C1: the claim says a malformed cache file makes `Load` return the empty
store with no error; the code (`pkg/namnsdag/cache.go`, `LoadCache`) instead
propagates the `json.Unmarshal` error: at the concrete malformed file state
the returned error is not `nil`. -/
theorem C1_counterexample :
    ¬ (Namnsdag.loadCache Namnsdag.FileState.malformed).2 = none := by
  simp [Namnsdag.loadCache]

/-- C1 amended: for a malformed or unrecognized-schema cache file, `Load`
returns the empty `Cache` value but propagates the parse error rather than
swallowing it. -/
theorem C1_load_malformed :
    Namnsdag.loadCache Namnsdag.FileState.malformed
      = (Namnsdag.emptyCache, some Namnsdag.CacheErr.parseErr) := rfl

/-- C2: the claim says a reader observes either the complete prior or the
complete new content, and that on a save failure the on-disk state is
unchanged.  `SaveCache` (`pkg/namnsdag/cache.go`) opens the destination with
`os.Create`, which truncates it in place, and then streams the JSON encoding
into it; at the concrete input where the encode step fails after a successful
`os.Create`, the save fails yet the file no longer holds the prior content —
it is left malformed (a partial prefix of the new serialization), which is
neither the prior nor the complete new content. -/
theorem C2_counterexample :
    Namnsdag.saveCache (Namnsdag.FileState.stored Namnsdag.demoCache)
        Namnsdag.emptyCache 7 Namnsdag.SaveMode.encodeFail
      = (Namnsdag.FileState.malformed, some Namnsdag.CacheErr.encodeErr)
    ∧ Namnsdag.FileState.malformed
        ≠ Namnsdag.FileState.stored Namnsdag.demoCache := by
  exact ⟨rfl, by simp⟩

/-- C2 amended: `Save` is not atomic.  On success the file holds exactly the
complete new serialized (timestamp-stamped) content; a failure of the
directory creation or of `os.Create` leaves the prior on-disk state
unchanged; but a failure of the streaming encode after the truncating
`os.Create` destroys the prior content and leaves a partial file, and a
subsequent `Load` of it fails with a parse error returning the empty store. -/
theorem C2_save_file_states (prior : Namnsdag.FileState) (c : Namnsdag.Cache)
    (now : Nat) :
    Namnsdag.saveCache prior c now Namnsdag.SaveMode.allOk
      = (Namnsdag.FileState.stored (Namnsdag.stampUpdatedAt c now), none)
    ∧ Namnsdag.saveCache prior c now Namnsdag.SaveMode.mkdirFail
      = (prior, some Namnsdag.CacheErr.mkdirErr)
    ∧ Namnsdag.saveCache prior c now Namnsdag.SaveMode.createFail
      = (prior, some Namnsdag.CacheErr.createErr)
    ∧ Namnsdag.loadCache
        (Namnsdag.saveCache prior c now Namnsdag.SaveMode.encodeFail).1
      = (Namnsdag.emptyCache, some Namnsdag.CacheErr.parseErr) :=
  ⟨rfl, rfl, rfl, rfl⟩

/-- C5: with both `--no-cache` and `--no-fetch` set, `loadOrFetchNames`
(`cmd/root.go`) fails immediately with the configuration error, for every
current time and every environment — zero cache loads, zero fetches, zero
saves. -/
theorem C5_both_flags_config_error (now : Nat) (env : Namnsdag.Env) :
    Namnsdag.loadOrFetchNames now true true env
      = { namesPerDay := [], error := some Namnsdag.CmdErr.cannotUseBothFlags,
          loadCalls := 0, fetchCalls := 0, saveCalls := 0 } := rfl

/-- C8: `Save` (succeeding) followed by `Load` yields a cache whose
`namesPerDay` and `validationToken` are identical to the saved store's, and
whose `lastUpdated` equals the saved one when it was non-zero and is stamped
with the save-time instant `now` (hence no earlier than it) when the saved
one was the zero sentinel. -/
theorem C8_save_load_round_trip (prior : Namnsdag.FileState)
    (c : Namnsdag.Cache) (now : Nat) :
    (Namnsdag.saveCache prior c now Namnsdag.SaveMode.allOk).2 = none
    ∧ Namnsdag.loadCache
        (Namnsdag.saveCache prior c now Namnsdag.SaveMode.allOk).1
      = (Namnsdag.stampUpdatedAt c now, none)
    ∧ (Namnsdag.stampUpdatedAt c now).namesPerDay = c.namesPerDay
    ∧ (Namnsdag.stampUpdatedAt c now).etag = c.etag
    ∧ (Namnsdag.stampUpdatedAt c now).updatedAt
      = (if c.updatedAt = 0 then now else c.updatedAt) := by
  refine ⟨rfl, rfl, ?_, ?_, ?_⟩ <;>
    · unfold Namnsdag.stampUpdatedAt
      split <;> simp_all

/-- C4: with `--no-fetch` set (and the cache not skipped), for every
successfully loaded cache state: a cache with at least one day bucket is
returned as-is with no fetch and no save, and an empty cache fails with the
distinguished none-or-outdated error — regardless of how old the cache is. -/
theorem C4_no_fetch_cases (now : Nat) (cache : Namnsdag.Cache)
    (f : String → Namnsdag.FetchOutcome) (so : Bool) :
    Namnsdag.loadOrFetchNames now false true
        { load := some cache, fetch := f, saveOk := so }
      = if cache.namesPerDay.length > 0 then
          { namesPerDay := cache.namesPerDay, error := none,
            loadCalls := 1, fetchCalls := 0, saveCalls := 0 }
        else
          { namesPerDay := [],
            error := some Namnsdag.CmdErr.noneOrOutdatedCache,
            loadCalls := 1, fetchCalls := 0, saveCalls := 0 } := by
  by_cases h : cache.namesPerDay.length > 0 <;>
    simp [Namnsdag.loadOrFetchNames, Namnsdag.resolveWithCache, h]

/-- C3: with no override flags, a successfully loaded cache that has at least
one day bucket and whose `lastUpdated` is not before the start of the current
day is returned unchanged, with zero fetch calls and zero saves.  Since no
save happens, the cache file — and hence the load result — is unchanged for
an immediately following call, whose run is this very same statement again: a
pure cache hit. -/
theorem C3_fresh_cache_hit (now : Nat) (cache : Namnsdag.Cache)
    (f : String → Namnsdag.FetchOutcome) (so : Bool)
    (hvalid : ¬ cache.namesPerDay = [])
    (hfresh : ¬ cache.updatedAt < Namnsdag.truncToDay now) :
    Namnsdag.loadOrFetchNames now false false
        { load := some cache, fetch := f, saveOk := so }
      = { namesPerDay := cache.namesPerDay, error := none,
          loadCalls := 1, fetchCalls := 0, saveCalls := 0 } := by
  have hlen : cache.namesPerDay.length > 0 :=
    List.length_pos.mpr hvalid
  simp [Namnsdag.loadOrFetchNames, Namnsdag.resolveWithCache, hlen, hfresh]

/-- C3 witness: the fresh-cache hit at a concrete cache and instant. -/
theorem C3_fresh_cache_hit_holds :
    Namnsdag.loadOrFetchNames 5 false false
        { load := some Namnsdag.demoCache,
          fetch := fun _ => Namnsdag.FetchOutcome.failure, saveOk := true }
      = { namesPerDay := Namnsdag.demoCache.namesPerDay, error := none,
          loadCalls := 1, fetchCalls := 0, saveCalls := 0 } :=
  C3_fresh_cache_hit 5 Namnsdag.demoCache
    (fun _ => Namnsdag.FetchOutcome.failure) true (by decide) (by decide)

/-- C6: a successfully loaded cache with at least one day bucket whose stored
validation token the fetch collaborator answers with the not-modified signal
is returned unchanged, with no error and with `SaveCache` never called —
whether the freshness check short-circuits the fetch or the conditional fetch
actually runs. -/
theorem C6_not_modified_keeps_cache (now : Nat) (cache : Namnsdag.Cache)
    (f : String → Namnsdag.FetchOutcome) (so : Bool) (e : String)
    (hvalid : ¬ cache.namesPerDay = [])
    (hfetch : f cache.etag = Namnsdag.FetchOutcome.notModified e) :
    (Namnsdag.loadOrFetchNames now false false
        { load := some cache, fetch := f, saveOk := so }).namesPerDay
      = cache.namesPerDay
    ∧ (Namnsdag.loadOrFetchNames now false false
        { load := some cache, fetch := f, saveOk := so }).error = none
    ∧ (Namnsdag.loadOrFetchNames now false false
        { load := some cache, fetch := f, saveOk := so }).saveCalls = 0 := by
  have hlen : cache.namesPerDay.length > 0 :=
    List.length_pos.mpr hvalid
  by_cases hout : cache.updatedAt < Namnsdag.truncToDay now <;>
    simp [Namnsdag.loadOrFetchNames, Namnsdag.resolveWithCache, hlen, hout,
      hfetch]

/-- C6 witness: the not-modified conditional fetch at a concrete outdated
cache with token `"abc"`. -/
theorem C6_not_modified_keeps_cache_holds :
    (Namnsdag.loadOrFetchNames Namnsdag.dayLen false false
        { load := some Namnsdag.demoCache,
          fetch := fun s =>
            if s = "abc" then Namnsdag.FetchOutcome.notModified "abc"
            else Namnsdag.FetchOutcome.failure,
          saveOk := true }).namesPerDay
      = Namnsdag.demoCache.namesPerDay
    ∧ (Namnsdag.loadOrFetchNames Namnsdag.dayLen false false
        { load := some Namnsdag.demoCache,
          fetch := fun s =>
            if s = "abc" then Namnsdag.FetchOutcome.notModified "abc"
            else Namnsdag.FetchOutcome.failure,
          saveOk := true }).error = none
    ∧ (Namnsdag.loadOrFetchNames Namnsdag.dayLen false false
        { load := some Namnsdag.demoCache,
          fetch := fun s =>
            if s = "abc" then Namnsdag.FetchOutcome.notModified "abc"
            else Namnsdag.FetchOutcome.failure,
          saveOk := true }).saveCalls = 0 :=
  C6_not_modified_keeps_cache Namnsdag.dayLen Namnsdag.demoCache
    (fun s =>
      if s = "abc" then Namnsdag.FetchOutcome.notModified "abc"
      else Namnsdag.FetchOutcome.failure)
    true "abc" (by decide) (by decide)

/-- C7: when the refresh path actually runs (cache loaded, fetch not
forbidden, cache outdated or absent), a failing fetch still returns the
loaded — possibly stale, possibly empty — cached mapping alongside the
propagated fetch error, and a successful fetch whose save fails still returns
the freshly refreshed in-memory mapping alongside the propagated save
error. -/
theorem C7_degraded_results_on_error (now : Nat) (cache : Namnsdag.Cache)
    (ns : List Namnsdag.Name) (e : String) (so : Bool)
    (hout : cache.namesPerDay = []
      ∨ cache.updatedAt < Namnsdag.truncToDay now) :
    Namnsdag.loadOrFetchNames now false false
        { load := some cache, fetch := fun _ => Namnsdag.FetchOutcome.failure,
          saveOk := so }
      = { namesPerDay := cache.namesPerDay,
          error := some Namnsdag.CmdErr.fetchNames,
          loadCalls := 1, fetchCalls := 1, saveCalls := 0 }
    ∧ Namnsdag.loadOrFetchNames now false false
        { load := some cache,
          fetch := fun _ => Namnsdag.FetchOutcome.success ns e,
          saveOk := false }
      = { namesPerDay := (cache.setNames ns).namesPerDay,
          error := some Namnsdag.CmdErr.cacheNames,
          loadCalls := 1, fetchCalls := 1, saveCalls := 1 } := by
  by_cases hvalid : cache.namesPerDay = []
  · constructor <;>
      simp [Namnsdag.loadOrFetchNames, Namnsdag.resolveWithCache, hvalid,
        Namnsdag.Cache.setNames, Namnsdag.Cache.addNames]
  · have hlen : cache.namesPerDay.length > 0 :=
      List.length_pos.mpr hvalid
    have hlate : cache.updatedAt < Namnsdag.truncToDay now := by
      rcases hout with h | h
      · exact absurd h hvalid
      · exact h
    constructor <;>
      simp [Namnsdag.loadOrFetchNames, Namnsdag.resolveWithCache, hlen, hlate,
        Namnsdag.Cache.setNames, Namnsdag.Cache.addNames]

/-- C7 witness: the degraded results at the concrete empty loaded cache. -/
theorem C7_degraded_results_on_error_holds :
    Namnsdag.loadOrFetchNames 0 false false
        { load := some Namnsdag.emptyCache,
          fetch := fun _ => Namnsdag.FetchOutcome.failure, saveOk := true }
      = { namesPerDay := Namnsdag.emptyCache.namesPerDay,
          error := some Namnsdag.CmdErr.fetchNames,
          loadCalls := 1, fetchCalls := 1, saveCalls := 0 }
    ∧ Namnsdag.loadOrFetchNames 0 false false
        { load := some Namnsdag.emptyCache,
          fetch := fun _ =>
            Namnsdag.FetchOutcome.success [Namnsdag.demoName] "tok",
          saveOk := false }
      = { namesPerDay :=
            (Namnsdag.emptyCache.setNames [Namnsdag.demoName]).namesPerDay,
          error := some Namnsdag.CmdErr.cacheNames,
          loadCalls := 1, fetchCalls := 1, saveCalls := 1 } :=
  C7_degraded_results_on_error 0 Namnsdag.emptyCache [Namnsdag.demoName]
    "tok" true (Or.inl rfl)

/-- Lookup after one `AddNames` insertion step: appending name `n` to the
bucket of key `j` extends exactly that bucket and leaves every other bucket
unchanged. -/
theorem lookupDoM_addName (m : NamesPerDay) (j k : DoM) (n : Name) :
    lookupDoM (addName m j n) k
      = if j = k then lookupDoM m k ++ [n] else lookupDoM m k := by
  induction m with
  | nil =>
      by_cases h : j = k <;> simp [addName, lookupDoM, h]
  | cons head rest ih =>
      obtain ⟨k₀, ns⟩ := head
      by_cases h1 : k₀ = j
      · subst h1
        by_cases h2 : k₀ = k <;> simp [addName, lookupDoM, h2]
      · by_cases h2 : k₀ = k
        · subst h2
          have : ¬ j = k₀ := fun h => h1 h.symm
          simp [addName, lookupDoM, h1, this]
        · simp [addName, lookupDoM, h1, h2, ih]

/-- Lookup after the `AddNames` loop: the bucket of `k` gains exactly the
inserted names whose own day-of-month key is `k`, in input order. -/
theorem lookupDoM_addNames (names : List Name) :
    ∀ (m : NamesPerDay) (k : DoM),
      lookupDoM (addNames m names) k
        = lookupDoM m k ++ names.filter (fun x => decide (x.dom = k)) := by
  induction names with
  | nil => intro m k; simp [addNames]
  | cons n ns ih =>
      intro m k
      have hstep : addNames m (n :: ns) = addNames (addName m n.dom n) ns := by
        simp [addNames]
      rw [hstep, ih, lookupDoM_addName]
      by_cases h : n.dom = k <;> simp [h]

/-- C9: after `SetNames`, the bucket of every day key `k` is exactly the
input subsequence of names whose own `(month, day)` equals `k` — so every
inserted name is stored under its canonical key with input order preserved,
its own key's selection contains it, and no other key's selection contains
it. -/
theorem C9_setNames_canonical_buckets (c : Cache) (names : List Name)
    (n : Name) (k : DoM) (hn : n ∈ names) :
    lookupDoM (c.setNames names).namesPerDay k
      = names.filter (fun x => decide (x.dom = k))
    ∧ n ∈ lookupDoM (c.setNames names).namesPerDay n.dom
    ∧ (¬ k = n.dom → ¬ n ∈ lookupDoM (c.setNames names).namesPerDay k) := by
  have hchar : ∀ (j : DoM),
      lookupDoM (c.setNames names).namesPerDay j
        = names.filter (fun x => decide (x.dom = j)) := by
    intro j
    have : (c.setNames names).namesPerDay = addNames [] names := by
      simp [Cache.setNames, Cache.addNames]
    rw [this, lookupDoM_addNames]
    simp [lookupDoM]
  refine ⟨hchar k, ?_, ?_⟩
  · rw [hchar n.dom]
    simp [List.mem_filter, hn]
  · intro hk hmem
    rw [hchar k] at hmem
    rcases List.mem_filter.mp hmem with ⟨-, hdom⟩
    exact hk (of_decide_eq_true hdom).symm

/-- C9 witness: the canonical-bucket property at a concrete two-record input
and a foreign key. -/
theorem C9_setNames_canonical_buckets_holds :
    lookupDoM (Namnsdag.emptyCache.setNames
        [Namnsdag.demoName, Namnsdag.demoName2]).namesPerDay (NewDoM 12 9)
      = [Namnsdag.demoName, Namnsdag.demoName2].filter
          (fun x => decide (x.dom = NewDoM 12 9))
    ∧ Namnsdag.demoName ∈ lookupDoM (Namnsdag.emptyCache.setNames
        [Namnsdag.demoName, Namnsdag.demoName2]).namesPerDay
          Namnsdag.demoName.dom
    ∧ (¬ NewDoM 12 9 = Namnsdag.demoName.dom
        → ¬ Namnsdag.demoName ∈ lookupDoM (Namnsdag.emptyCache.setNames
            [Namnsdag.demoName, Namnsdag.demoName2]).namesPerDay
              (NewDoM 12 9)) :=
  C9_setNames_canonical_buckets Namnsdag.emptyCache
    [Namnsdag.demoName, Namnsdag.demoName2] Namnsdag.demoName
    (NewDoM 12 9) (by decide)

/-- The ascending lexicographic order on name records claimed for
`SortNames`: first by month, then by day, and finally by name. -/
def lexLe (a b : Name) : Prop :=
  a.month < b.month
  ∨ (a.month = b.month
      ∧ (a.day < b.day ∨ (a.day = b.day ∧ a.name ≤ b.name)))

/-- Absence of a `nameLess` inversion between two records is exactly the
lexicographic month-day-name order. -/
theorem not_nameLess_iff (a b : Name) :
    ((! nameLess b a) = true) ↔ lexLe a b := by
  simp only [nameLess, lexLe, Bool.not_eq_true']
  split_ifs with h1 h2 <;> simp only [decide_eq_false_iff_not]
  · constructor
    · intro h
      exact Or.inl (by omega)
    · rintro (h | ⟨heq, -⟩)
      · omega
      · exact absurd heq.symm h1
  · have hm : b.month = a.month := not_not.mp h1
    constructor
    · intro h
      exact Or.inr ⟨hm.symm, Or.inl (by omega)⟩
    · rintro (h | ⟨-, (h | ⟨heq, -⟩)⟩)
      · omega
      · omega
      · exact absurd heq.symm h2
  · have hm : b.month = a.month := not_not.mp h1
    have hd : b.day = a.day := not_not.mp h2
    constructor
    · intro h
      exact Or.inr ⟨hm.symm, Or.inr ⟨hd.symm, not_lt.mp h⟩⟩
    · rintro (h | ⟨-, (h | ⟨-, hle⟩)⟩)
      · omega
      · omega
      · exact not_lt.mpr hle

/-- The lexicographic month-day-name order is transitive. -/
theorem lexLe_trans (a b c : Name) (hab : lexLe a b) (hbc : lexLe b c) :
    lexLe a c := by
  rcases hab with h1 | ⟨e1, h1⟩ <;> rcases hbc with h2 | ⟨e2, h2⟩
  · exact Or.inl (by omega)
  · exact Or.inl (by omega)
  · exact Or.inl (by omega)
  · refine Or.inr ⟨by omega, ?_⟩
    rcases h1 with h1 | ⟨d1, hn1⟩ <;> rcases h2 with h2 | ⟨d2, hn2⟩
    · exact Or.inl (by omega)
    · exact Or.inl (by omega)
    · exact Or.inl (by omega)
    · exact Or.inr ⟨by omega, le_trans hn1 hn2⟩

/-- The lexicographic month-day-name order is total. -/
theorem lexLe_total (a b : Name) : lexLe a b ∨ lexLe b a := by
  rcases lt_trichotomy a.month b.month with h | h | h
  · exact Or.inl (Or.inl h)
  · rcases lt_trichotomy a.day b.day with hd | hd | hd
    · exact Or.inl (Or.inr ⟨h, Or.inl hd⟩)
    · rcases le_total a.name b.name with hn | hn
      · exact Or.inl (Or.inr ⟨h, Or.inr ⟨hd, hn⟩⟩)
      · exact Or.inr (Or.inr ⟨h.symm, Or.inr ⟨hd.symm, hn⟩⟩)
    · exact Or.inr (Or.inr ⟨h.symm, Or.inl hd⟩)
  · exact Or.inr (Or.inl h)

/-- C10: `SortNames` produces a permutation of its input that is sorted
ascending first by month, then by day, then by name; and the success path of
`Fetch` returns exactly the `SortNames`-sorted parsed names. -/
theorem C10_sortNames_sorted_permutation (l raw : List Name) (e : String) :
    (sortNames l).Perm l
    ∧ List.Sorted lexLe (sortNames l)
    ∧ fetchGo (NextDataOutcome.ok raw e)
      = FetchOutcome.success (sortNames raw) e := by
  refine ⟨List.mergeSort_perm l _, ?_, rfl⟩
  have htrans : ∀ x y z : Name, (! nameLess y x) = true
      → (! nameLess z y) = true → (! nameLess z x) = true := by
    intro x y z h1 h2
    rw [not_nameLess_iff] at h1 h2 ⊢
    exact lexLe_trans x y z h1 h2
  have htotal : ∀ x y : Name,
      ((! nameLess y x) || (! nameLess x y)) = true := by
    intro x y
    rcases lexLe_total x y with h | h
    · exact Bool.or_eq_true_iff.mpr (Or.inl ((not_nameLess_iff x y).mpr h))
    · exact Bool.or_eq_true_iff.mpr (Or.inr ((not_nameLess_iff y x).mpr h))
  have hs := @List.sorted_mergeSort Name (fun a b => ! nameLess b a)
    htrans htotal l
  exact List.Pairwise.imp (fun h => (not_nameLess_iff _ _).mp h) hs

end Namnsdag
